import Mathlib

/-!
Verification development for the GestorCorreo frontend sync core:
the event-stream consumer (`streamSync` in `services/api.ts`), the
two-phase sync progress engine (`handleSync` in `pages/Dashboard.tsx`),
the bulk classification scheduler (`handleBulkClassify`), and the
percent derivation (`getPercent` in the SyncStatus component).

Numbers on the wire are modelled as `Nat` (all counters in the code are
non-negative integers); JavaScript truthiness of a number is `≠ 0`, of a
string is `≠ ""`, and of a missing field is false.
-/

namespace GestorCorreo

/-! ## Data model and Sync Progress Engine (`handleSync`) -/

/-- Phase status enum from the Dashboard `syncState` type:
`'pending' | 'active' | 'complete' | 'error'`. -/
inductive PStatus where
  | pending
  | active
  | complete
  | error
deriving DecidableEq, Repr

/-- One progress phase (`download` or `classify`) of the dual sync state. -/
structure Phase where
  status : PStatus
  current : Nat
  total : Nat
  message : Option String
deriving DecidableEq, Repr

/-- A non-absent sync session: the object held in the `syncState` React
state when it is not `null`. -/
structure Session where
  download : Phase
  classify : Phase
deriving DecidableEq, Repr

/-- A session-shaped object whose fields may be missing: the result of
spreading `null` in a JS object literal (`{...null}` has no fields), as
produced by the transition function when applied to an absent session. -/
structure RawSession where
  download : Option Phase
  classify : Option Phase
deriving DecidableEq, Repr

/-- `sync_result` payload of the `complete` wire event. -/
structure SyncResult where
  new_messages : Option Nat
deriving DecidableEq, Repr

/-- A wire-level status event as received by `handleSync`'s `onMessage`
callback: a JSON object whose fields may each be absent. -/
structure Event where
  status : Option String
  current : Option Nat
  total : Option Nat
  message : Option String
  sync_result : Option SyncResult
  classified_count : Option Nat
  error : Option String
deriving DecidableEq, Repr

/-- Side effects performed by the transition branches of `handleSync`
and by `handleBulkClassify`: toast notifications, query invalidation,
list refetch, and the delayed session-clearing timer. -/
inductive Effect where
  | notifySuccess (msg : String)
  | notifyError (msg : String)
  | notifyInfo (msg : String)
  | invalidateMessages
  | refetchMessages
  | armClearTimer (delayMs : Nat)
deriving DecidableEq, Repr

/-- JS `x || 0` for an optional number field: a missing field and the
number `0` are both falsy, so both yield `0`. -/
def orZero : Option Nat → Nat
  | none => 0
  | some n => n

/-- JS `x || d` for an optional string field: a missing field and the
empty string are falsy. -/
def orStr : Option String → String → String
  | none, d => d
  | some s, d => if s = "" then d else s

/-- JS truthiness of an optional number (`data.current` in the legacy
untagged branch guard): `0` and a missing field are falsy. -/
def truthyNat : Option Nat → Bool
  | none => false
  | some n => n != 0

/-- JS truthiness of an optional string (`data.status` in `!data.status`):
`""` and a missing field are falsy. -/
def truthyStr : Option String → Bool
  | none => false
  | some s => s != ""

/-- String interpolation of a possibly-missing number, as JS template
literals render `undefined`. -/
def optNatStr : Option Nat → String
  | none => "undefined"
  | some n => toString n

/-- `new_messages` extraction in the `complete` branch:
`data.sync_result?.new_messages || 0`. -/
def newMessagesOf (e : Event) : Nat :=
  match e.sync_result with
  | none => 0
  | some r => orZero r.new_messages

/-- Success toast text of the `complete` branch of `handleSync`. -/
def completeToast (newCount classified : Nat) : String :=
  if classified > 0 then
    "Sincronizados " ++ toString newCount ++ " mensajes y clasificados " ++ toString classified
  else
    "Sincronizados " ++ toString newCount ++ " nuevos mensajes"

/-- Initial session installed by `handleSync` before the stream starts:
`download {active,0,0,'Starting...'}`, `classify {pending,0,0,'Waiting...'}`. -/
def initSession : Session :=
  { download := { status := .active, current := 0, total := 0, message := some "Starting..." }
    classify := { status := .pending, current := 0, total := 0, message := some "Waiting..." } }

/-- The `onMessage` transition function of `handleSync`, applied to the
current (possibly absent) `syncState`.  Faithful to the branch order and
guards of the source, including JS truthiness in the legacy untagged
guard `(data.current && !data.status)`, spreading of `null`
(`{...prev!}` with `prev = null` yields an object with no fields), and
the `TypeError` thrown by `prev!.download` / `prev!.classify` member
access when `prev` is `null` (modelled as `Except.error ()`).
Returns the new raw session value together with the emitted side
effects. -/
def applyEventOpt (s : Option Session) (e : Event) :
    Except Unit (Option RawSession × List Effect) :=
  if e.status = some "found_messages" then
    -- {...prev!, download: {status:'active', current:0, total: data.total||0, message: ...}}
    let d : Phase :=
      { status := .active, current := 0, total := orZero e.total
        message := some (orStr e.message ("Encontrados " ++ optNatStr e.total ++ " mensajes")) }
    match s with
    | some ss => .ok (some { download := some d, classify := some ss.classify }, [])
    | none => .ok (some { download := some d, classify := none }, [])
  else if e.status = some "downloading" ∨ e.status = some "download_progress" ∨
      (truthyNat e.current ∧ ¬ truthyStr e.status) then
    let d : Phase :=
      { status := .active, current := orZero e.current, total := orZero e.total
        message := some (orStr e.message "Descargando...") }
    match s with
    | some ss => .ok (some { download := some d, classify := some ss.classify }, [])
    | none => .ok (some { download := some d, classify := none }, [])
  else if e.status = some "classifying" ∨ e.status = some "classifying_progress" then
    -- reads prev!.download: throws on an absent session
    match s with
    | some ss =>
        .ok (some
          { download := some { ss.download with status := .complete, message := some "Descarga completa" }
            classify := some
              { status := .active, current := orZero e.current, total := orZero e.total
                message := some (orStr e.message "Analizando...") } }, [])
    | none => .error ()
  else if e.status = some "complete" then
    -- reads prev!.download.total and prev!.classify: throws on an absent session
    match s with
    | some ss =>
        let newCount := newMessagesOf e
        let classified := orZero e.classified_count
        .ok (some
          { download := some { ss.download with
                               status := .complete,
                               current := ss.download.total,
                               total := ss.download.total }
            classify := some { ss.classify with
                               status := .complete,
                               current := classified,
                               total := classified } },
          [.notifySuccess (completeToast newCount classified),
           .invalidateMessages, .armClearTimer 5000])
    | none => .error ()
  else if e.status = some "error" then
    -- reads prev!.download: throws on an absent session
    match s with
    | some ss =>
        .ok (some
          { download := some { ss.download with status := .error, message := e.error }
            classify := some ss.classify },
          [.notifyError (orStr e.error "Fallo en sincronización")])
    | none => .error ()
  else
    -- unrecognized tag: setSyncState is not called, the session is unchanged
    .ok ((match s with
          | some ss => some { download := some ss.download, classify := some ss.classify }
          | none => none), [])

/-- The transition restricted to a present session, as a total function
`Session → Event → Session × effects` (on a present session no branch
throws and both phases stay present). -/
def applyEvent (s : Session) (e : Event) : Session × List Effect :=
  match applyEventOpt (some s) e with
  | .ok (some { download := some d, classify := some c }, effs) => ({ download := d, classify := c }, effs)
  | _ => (s, [])

/-- The Dashboard `onError` callback handed to `streamSync`:
`showError('Sync connection failed'); setSyncState(null)` — it ignores
the current session entirely. -/
def onStreamError (_s : Option Session) : Option Session × List Effect :=
  (none, [.notifyError "Sync connection failed"])

/-- `getPercent` of the SyncStatus component:
`if (state.total === 0) return 0; return Math.min(100, Math.round((state.current / state.total) * 100))`,
with JS number arithmetic modelled over `ℚ` and `Math.round` as the
half-up `round : ℚ → ℤ`. -/
def getPercent (st : Phase) : ℤ :=
  if st.total = 0 then 0
  else min 100 (round ((st.current : ℚ) / (st.total : ℚ) * 100))

/-- `unrecognized e` holds when `e` matches none of the guards of the
transition function, so `setSyncState` is never called for it. -/
def unrecognized (e : Event) : Prop :=
  e.status ≠ some "found_messages" ∧ e.status ≠ some "downloading" ∧
  e.status ≠ some "download_progress" ∧ ¬(truthyNat e.current ∧ ¬ truthyStr e.status) ∧
  e.status ≠ some "classifying" ∧ e.status ≠ some "classifying_progress" ∧
  e.status ≠ some "complete" ∧ e.status ≠ some "error"

/-- A legacy untagged event whose `current` is `0`: falsy in JS, so the
guard `(data.current && !data.status)` rejects it. -/
def legacyZeroEvent : Event :=
  { status := none, current := some 0, total := some 5, message := none
    sync_result := none, classified_count := none, error := none }

/-- A legacy untagged event with a truthy `current`. -/
def legacyEvent37 : Event :=
  { status := none, current := some 3, total := some 7, message := none
    sync_result := none, classified_count := none, error := none }

/-- `found_messages{total:5}`. -/
def evFound5 : Event :=
  { status := some "found_messages", current := none, total := some 5, message := none
    sync_result := none, classified_count := none, error := none }

/-- `download_progress{current:5,total:5}`. -/
def evDp55 : Event :=
  { status := some "download_progress", current := some 5, total := some 5, message := none
    sync_result := none, classified_count := none, error := none }

/-- `classifying_progress{current:2,total:5}`. -/
def evCp25 : Event :=
  { status := some "classifying_progress", current := some 2, total := some 5, message := none
    sync_result := none, classified_count := none, error := none }

/-- `complete{sync_result:{new_messages:5}, classified_count:5}`. -/
def evComplete55 : Event :=
  { status := some "complete", current := none, total := none, message := none
    sync_result := some { new_messages := some 5 }, classified_count := some 5, error := none }

/-- A bare `complete` event. -/
def evCompleteBare : Event :=
  { status := some "complete", current := none, total := none, message := none
    sync_result := none, classified_count := none, error := none }

/-- An event with an unlisted status tag. -/
def evUnknownTag : Event :=
  { status := some "warming_up", current := none, total := none, message := none
    sync_result := none, classified_count := none, error := none }

/-! ## Event Parser (`streamSync` per-record loop) -/

/-- Whitespace code points removed by JS `String.trim`. -/
def isWS (c : Nat) : Bool :=
  c = 32 || c = 10 || c = 9 || c = 13 || c = 12 || c = 11

/-- Remove leading whitespace. -/
def trimLeft : List Nat → List Nat
  | [] => []
  | c :: r => if isWS c then trimLeft r else c :: r

/-- JS `String.trim`: strip whitespace at both ends, over code points. -/
def trimStr (l : List Nat) : List Nat :=
  (trimLeft (trimLeft l).reverse).reverse

/-- The code points of the field marker `"data: "`. -/
def dataColonSpace : List Nat := [100, 97, 116, 97, 58, 32]

/-- The per-record body of `streamSync`'s `for (const line of lines)` loop:
trim the record; ignore it unless it starts with `data: `; strip the
six-character marker; ignore an empty payload; otherwise attempt a JSON
decode (`jsonParse`), where a decode failure is logged and dropped
(`none`).  Returns `some` event exactly when `onMessage` would be
invoked. -/
def parseRecord {E : Type} (jsonParse : List Nat → Option E) (line : List Nat) : Option E :=
  let t := trimStr line
  if dataColonSpace.isPrefixOf t then
    let payload := t.drop 6
    if payload = [] then none
    else jsonParse payload
  else none

/-- The events delivered to `onMessage` for a batch of complete records,
in order. -/
def processRecords {E : Type} (jsonParse : List Nat → Option E)
    (records : List (List Nat)) : List E :=
  records.filterMap (parseRecord jsonParse)

/-- `"data: 1"` as code points. -/
def recData1 : List Nat := [100, 97, 116, 97, 58, 32, 49]

/-- `"data: 2"` as code points (made unparseable by the sample parser). -/
def recData2 : List Nat := [100, 97, 116, 97, 58, 32, 50]

/-- Sample payload decoder for the witness: decodes `"1"` only. -/
def sampleParse (l : List Nat) : Option Nat :=
  if l = [49] then some 7 else none

/-! ## Chunk Decoder (`streamSync` read loop: TextDecoder + buffer split) -/

/-- Number of bytes of a UTF-8 sequence, from its leading byte (a stray
continuation or invalid byte is consumed alone, as an incremental
decoder does with invalid input). -/
def utf8Len (b : Nat) : Nat :=
  if b < 128 then 1
  else if b < 192 then 1
  else if b < 224 then 2
  else if b < 240 then 3
  else if b < 248 then 4
  else 1

/-- Code point of one complete UTF-8 sequence. -/
def decodeBytes : List Nat → Nat
  | [b] => b
  | [b1, b2] => (b1 - 192) * 64 + (b2 - 128)
  | [b1, b2, b3] => (b1 - 224) * 4096 + (b2 - 128) * 64 + (b3 - 128)
  | [b1, b2, b3, b4] => (b1 - 240) * 262144 + (b2 - 128) * 4096 + (b3 - 128) * 64 + (b4 - 128)
  | _ => 0

/-- UTF-8 encoding of one code point. -/
def utf8EncodeChar (c : Nat) : List Nat :=
  if c < 128 then [c]
  else if c < 2048 then [192 + c / 64, 128 + c % 64]
  else if c < 65536 then [224 + c / 4096, 128 + c / 64 % 64, 128 + c % 64]
  else [240 + c / 262144, 128 + c / 4096 % 64, 128 + c / 64 % 64, 128 + c % 64]

/-- UTF-8 encoding of a text (a list of code points). -/
def utf8Encode (text : List Nat) : List Nat :=
  (text.map utf8EncodeChar).flatten

/-- Prepend a decoded code point to a decoder result. -/
def consOut (c : Nat) (p : List Nat × List Nat) : List Nat × List Nat :=
  (c :: p.1, p.2)

/-- Decode one UTF-8 sequence from the front of a byte sequence:
`some (code point, remaining bytes)`, or `none` when the bytes are empty
or form only an incomplete leading sequence. -/
def decodeStep : List Nat → Option (Nat × List Nat)
  | [] => none
  | b :: rest =>
    if utf8Len b = 1 then some (decodeBytes [b], rest)
    else if utf8Len b = 2 then
      match rest with
      | [] => none
      | b2 :: rest2 => some (decodeBytes [b, b2], rest2)
    else if utf8Len b = 3 then
      match rest with
      | b2 :: b3 :: rest3 => some (decodeBytes [b, b2, b3], rest3)
      | _ => none
    else
      match rest with
      | b2 :: b3 :: b4 :: rest4 => some (decodeBytes [b, b2, b3, b4], rest4)
      | _ => none

/-- One `TextDecoder.decode(value, {stream: true})` step on a byte
sequence: greedily decode complete UTF-8 sequences from the front and
return `(code points, undecoded trailing bytes)`; the trailing bytes of
an incomplete final sequence are retained as decoder state for the next
chunk. -/
def decodeGreedy (bs : List Nat) : List Nat × List Nat :=
  match h : decodeStep bs with
  | none => ([], bs)
  | some (c, rest) => consOut c (decodeGreedy rest)
termination_by bs.length
decreasing_by
  rcases bs with _ | ⟨b, tl⟩
  · simp [decodeStep] at h
  · simp only [decodeStep] at h
    split at h
    · simp only [Option.some.injEq, Prod.mk.injEq] at h
      obtain ⟨_, h2⟩ := h
      subst h2
      simp
    · split at h
      · rcases tl with _ | ⟨b2, tl2⟩
        · simp at h
        · simp only [Option.some.injEq, Prod.mk.injEq] at h
          obtain ⟨_, h2⟩ := h
          subst h2
          simp
          omega
      · split at h
        · rcases tl with _ | ⟨b2, _ | ⟨b3, tl3⟩⟩
          · simp at h
          · simp at h
          · simp only [Option.some.injEq, Prod.mk.injEq] at h
            obtain ⟨_, h2⟩ := h
            subst h2
            simp
            omega
        · rcases tl with _ | ⟨b2, _ | ⟨b3, _ | ⟨b4, tl4⟩⟩⟩
          · simp at h
          · simp at h
          · simp at h
          · simp only [Option.some.injEq, Prod.mk.injEq] at h
            obtain ⟨_, h2⟩ := h
            subst h2
            simp
            omega

/-- Prepend a character to the first piece of a split result. -/
def consHead (c : Nat) : List (List Nat) → List (List Nat)
  | [] => [[c]]
  | p :: ps => (c :: p) :: ps

/-- JS `buffer.split('\n\n')` over code points: leftmost non-overlapping
split on the double newline; always returns at least one piece. -/
def splitNN : List Nat → List (List Nat)
  | [] => [[]]
  | [c] => [[c]]
  | c :: d :: rest =>
    if c = 10 ∧ d = 10 then [] :: splitNN rest
    else consHead c (splitNN (d :: rest))

/-- `lines.pop() || ''`: the last piece of the split (the new buffer). -/
def lastD : List (List Nat) → List Nat
  | [] => []
  | [p] => p
  | _ :: q :: ps => lastD (q :: ps)

/-- The pieces before the last one: the complete records emitted by one
loop iteration. -/
def dropLastL : List (List Nat) → List (List Nat)
  | [] => []
  | [_] => []
  | p :: q :: ps => p :: dropLastL (q :: ps)

/-- Decoder + buffer state carried across read-loop iterations. -/
structure DecState where
  pending : List Nat
  buffer : List Nat
deriving DecidableEq, Repr

/-- One iteration of the `streamSync` read loop on a byte chunk:
`chunk = decoder.decode(value, {stream:true}); buffer += chunk;
lines = buffer.split('\n\n'); buffer = lines.pop() || ''` — returns the
new state and the complete records emitted. -/
def stepChunk (st : DecState) (bytes : List Nat) : DecState × List (List Nat) :=
  let d := decodeGreedy (st.pending ++ bytes)
  let ps := splitNN (st.buffer ++ d.1)
  (⟨d.2, lastD ps⟩, dropLastL ps)

/-- The records emitted by the read loop over a sequence of byte chunks
(on end-of-stream the remaining buffer is discarded, as the loop simply
breaks). -/
def runStream (st : DecState) : List (List Nat) → List (List Nat)
  | [] => []
  | ch :: chs => (stepChunk st ch).2 ++ runStream (stepChunk st ch).1 chs

/-! ## Transport model for `streamSync` failure semantics -/

/-- One result of `reader.read()`: a byte chunk, or a rejection. -/
inductive ReadStep where
  | chunk (bytes : List Nat)
  | readFail
deriving DecidableEq, Repr

/-- Behaviour of the streaming transport: the `fetch` itself rejects, or
a response arrives with an HTTP ok flag, a body-reader availability
flag, and a sequence of read results (end of list = `done`). -/
inductive Transport where
  | fetchFail
  | response (ok : Bool) (readerAvail : Bool) (reads : List ReadStep)
deriving DecidableEq, Repr

/-- The read loop of `streamSync`: delivers parsed events per chunk and
reports whether a read rejected (which throws out of the loop). -/
def readLoop {E : Type} (jsonParse : List Nat → Option E) (st : DecState) :
    List ReadStep → List E × Bool
  | [] => ([], false)
  | .readFail :: _ => ([], true)
  | .chunk bs :: rest =>
      let s := stepChunk st bs
      let evs := processRecords jsonParse s.2
      let r := readLoop jsonParse s.1 rest
      (evs ++ r.1, r.2)

/-- `streamSync` control flow: the whole body is wrapped in one
`try`/`catch` whose handler calls `onError(err)` once; a non-ok
response and a missing reader `throw` into the same handler.  Returns
the events delivered to `onMessage` and the number of `onError`
invocations. -/
def streamSync {E : Type} (jsonParse : List Nat → Option E) (t : Transport) :
    List E × Nat :=
  match t with
  | .fetchFail => ([], 1)
  | .response ok readerAvail reads =>
    if ok = false then ([], 1)
    else if readerAvail = false then ([], 1)
    else
      let r := readLoop jsonParse ⟨[], []⟩ reads
      (r.1, if r.2 then 1 else 0)

/-- The transport raised an error: fetch rejected, non-2xx status, no
reader, or a reader rejection. -/
def transportFails : Transport → Prop
  | .fetchFail => True
  | .response ok readerAvail reads =>
      ok = false ∨ readerAvail = false ∨ ReadStep.readFail ∈ reads

/-! ## Bulk Classification Scheduler (`handleBulkClassify`) -/

/-- Record of one processed batch: the messages dispatched concurrently
in it, the progress figure reported after it, and the running tallies
after its `Promise.allSettled` resolves. -/
structure BatchTrace (α : Type) where
  dispatched : List α
  progress : Nat
  classifiedAfter : Nat
  failedAfter : Nat
deriving DecidableEq, Repr

/-- Consecutive batches of five (`unclassifiedMessages.slice(i, i + 5)`). -/
def chunks5 {α : Type} : List α → List (List α)
  | [] => []
  | [a] => [[a]]
  | [a, b] => [[a, b]]
  | [a, b, c] => [[a, b, c]]
  | [a, b, c, d] => [[a, b, c, d]]
  | a :: b :: c :: d :: e :: rest => [a, b, c, d, e] :: chunks5 rest

/-- Tallies of one settled batch added to the running counters:
every request settles (fulfilled or rejected) and is counted. -/
def settleBatch {α : Type} (oracle : α → Bool) (batch : List α) (c f : Nat) : Nat × Nat :=
  (c + (batch.filter oracle).length, f + (batch.filter (fun x => ! oracle x)).length)

/-- The `for (let i = 0; i < n; i += 5)` loop of `handleBulkClassify`:
take the next batch of five, settle all of its requests, then report
`min(i + 5, n)` processed, and continue with the rest; `oracle` gives
each request's outcome.  Returns the batch traces and the final
`(classified, failed)` tallies. -/
def bulkLoop {α : Type} (oracle : α → Bool) (n : Nat) :
    List α → Nat → Nat → Nat → List (BatchTrace α) × Nat × Nat
  | [], _, c, f => ([], c, f)
  | [a], i, c, f =>
      let t := settleBatch oracle [a] c f
      ([⟨[a], min (i + 5) n, t.1, t.2⟩], t.1, t.2)
  | [a, b], i, c, f =>
      let t := settleBatch oracle [a, b] c f
      ([⟨[a, b], min (i + 5) n, t.1, t.2⟩], t.1, t.2)
  | [a, b, c'], i, c, f =>
      let t := settleBatch oracle [a, b, c'] c f
      ([⟨[a, b, c'], min (i + 5) n, t.1, t.2⟩], t.1, t.2)
  | [a, b, c', d], i, c, f =>
      let t := settleBatch oracle [a, b, c', d] c f
      ([⟨[a, b, c', d], min (i + 5) n, t.1, t.2⟩], t.1, t.2)
  | a :: b :: c' :: d :: e :: rest, i, c, f =>
      let t := settleBatch oracle [a, b, c', d, e] c f
      let r := bulkLoop oracle n rest (i + 5) t.1 t.2
      (⟨[a, b, c', d, e], min (i + 5) n, t.1, t.2⟩ :: r.1, r.2)

/-- `handleBulkClassify`: filter the rendered messages to those without
a truthy classification label; if none, report and stop; otherwise run
the batch loop, refetch the list, and report the final summary.
Returns the emitted effects and the final `(classified, failed)`. -/
def handleBulkClassify {α : Type} (oracle : α → Bool) (label : α → Option String)
    (messages : List α) : List Effect × Nat × Nat :=
  let unclassified := messages.filter (fun m => ! truthyStr (label m))
  if unclassified.length = 0 then
    ([.notifyInfo "Starting bulk classification...",
      .notifyInfo "No unclassified messages found"], 0, 0)
  else
    let r := bulkLoop oracle unclassified.length unclassified 0 0 0
    ([.notifyInfo "Starting bulk classification..."] ++
      (r.1.map fun t => .notifyInfo
        ("Classifying... " ++ toString t.progress ++ "/" ++ toString unclassified.length)) ++
      [.refetchMessages,
       .notifySuccess ("Bulk classification complete! Classified: " ++ toString r.2.1 ++
         ", Failed: " ++ toString r.2.2)],
     r.2)

/-! ## Theorems -/

/-- C9: `getPercent` returns `0` when `total = 0` (never a division by
zero), and otherwise `clamp(round(100 * current / total), 0, 100)`. -/
theorem getPercent_eq_clamp (st : Phase) :
    getPercent st =
      if st.total = 0 then 0
      else max 0 (min 100 (round ((100 : ℚ) * (st.current : ℚ) / (st.total : ℚ)))) := by
  unfold getPercent
  split
  · rfl
  · have harg : (0 : ℚ) ≤ (st.current : ℚ) / (st.total : ℚ) * 100 := by positivity
    have hround : (0 : ℤ) ≤ round ((st.current : ℚ) / (st.total : ℚ) * 100) := by
      rw [round_eq]
      refine Int.le_floor.mpr ?_
      push_cast
      linarith
    have hcomm : (st.current : ℚ) / (st.total : ℚ) * 100
        = (100 : ℚ) * (st.current : ℚ) / (st.total : ℚ) := by ring
    rw [hcomm] at hround ⊢
    omega

/-- C3 counterexample: the claim predicts that a legacy untagged event
with `current = 0` (and `total = 5`) is treated as `download_progress`,
setting `download.total` to `5`; in the code `data.current = 0` is falsy,
the guard `(data.current && !data.status)` fails, and the event is a
no-op, leaving `download.total = 0`. -/
theorem legacy_zero_current_is_noop :
    (applyEvent initSession legacyZeroEvent).1 = initSession ∧
    initSession.download.total = 0 ∧ (0 : Nat) ≠ 5 := by
  refine ⟨rfl, rfl, by decide⟩

/-- C3 (amended): a status event carrying a truthy (present and nonzero)
`current` and no truthy `status` field is treated like
`download_progress`: `download` becomes
`{active, current: event.current‖0, total: event.total‖0, message‖'Descargando...'}`. -/
theorem legacy_untagged_download (s : Session) (e : Event)
    (hcur : truthyNat e.current = true) (hst : truthyStr e.status = false) :
    applyEvent s e =
      ({ download := { status := .active, current := orZero e.current, total := orZero e.total
                       message := some (orStr e.message "Descargando...") }
         classify := s.classify }, []) := by
  have h1 : ¬ e.status = some "found_messages" := by
    intro h; rw [h] at hst; simp [truthyStr] at hst
  unfold applyEvent applyEventOpt
  rw [if_neg h1, if_pos (Or.inr (Or.inr ⟨hcur, by simp [hst]⟩))]

theorem legacy_untagged_download_witness :
    truthyNat legacyEvent37.current = true ∧ truthyStr legacyEvent37.status = false ∧
    applyEvent initSession legacyEvent37 =
      ({ download := { status := .active, current := 3, total := 7
                       message := some "Descargando..." }
         classify := initSession.classify }, []) :=
  ⟨rfl, rfl, legacy_untagged_download initSession legacyEvent37 rfl rfl⟩

/-- C4: on any present session, a `complete` event sets
`download = {complete, download.total, download.total}` and
`classify = {complete, classified_count, classified_count}`, and emits a
success notification built from `sync_result.new_messages` and
`classified_count`, invalidates the message list, and arms a one-shot
5000 ms timer that clears the session. -/
theorem complete_transition (s : Session) (e : Event) (h : e.status = some "complete") :
    applyEvent s e =
      ({ download := { s.download with
                       status := .complete
                       current := s.download.total
                       total := s.download.total }
         classify := { s.classify with
                       status := .complete
                       current := orZero e.classified_count
                       total := orZero e.classified_count } },
       [.notifySuccess (completeToast (newMessagesOf e) (orZero e.classified_count)),
        .invalidateMessages, .armClearTimer 5000]) := by
  unfold applyEvent applyEventOpt
  rw [h]
  simp [truthyStr]

theorem complete_transition_witness :
    evComplete55.status = some "complete" ∧
    applyEvent initSession evComplete55 =
      ({ download := { status := .complete, current := 0, total := 0,
                       message := some "Starting..." },
         classify := { status := .complete, current := 5, total := 5,
                       message := some "Waiting..." } },
       [.notifySuccess (completeToast 5 5), .invalidateMessages, .armClearTimer 5000]) :=
  ⟨rfl, complete_transition initSession evComplete55 rfl⟩

/-- C5: a `classifying_progress` event on a present session immediately
marks `download` complete (without waiting for `complete`) and sets
`classify = {active, current‖0, total‖0}`; and in the spec scenario
(`found_messages{total:5}` → `download_progress{5,5}` →
`classifying_progress{2,5}` → `complete{new_messages:5, classified_count:5}`)
the download phase is complete right after `classifying_progress` and the
final classify phase is `{complete, 5, 5}`. -/
theorem classifying_handoff (s : Session) (e : Event)
    (h : e.status = some "classifying_progress") :
    applyEvent s e =
      ({ download := { s.download with status := .complete, message := some "Descarga completa" },
         classify := { status := .active, current := orZero e.current, total := orZero e.total,
                       message := some (orStr e.message "Analizando...") } }, []) ∧
    ((applyEvent (applyEvent (applyEvent initSession evFound5).1 evDp55).1 evCp25).1.download.status
        = .complete ∧
     (applyEvent (applyEvent (applyEvent (applyEvent initSession evFound5).1 evDp55).1 evCp25).1
        evComplete55).1.classify
        = { status := .complete, current := 5, total := 5, message := some "Analizando..." }) := by
  constructor
  · unfold applyEvent applyEventOpt
    rw [h]
    simp [truthyStr]
  · exact ⟨rfl, rfl⟩

theorem classifying_handoff_witness :
    evCp25.status = some "classifying_progress" ∧
    applyEvent initSession evCp25 =
      ({ download := { status := .complete, current := 0, total := 0,
                       message := some "Descarga completa" },
         classify := { status := .active, current := 2, total := 5,
                       message := some "Analizando..." } }, []) :=
  ⟨rfl, (classifying_handoff initSession evCp25 rfl).1⟩

/-- C10: the transition function is not total over the absent session:
on `syncState = null`, a `classifying_progress`, `complete`, or `error`
event dereferences a field of `null` and throws; a `found_messages` or
`download_progress` event produces a malformed session whose classify
phase is missing (`{...null}` spreads to nothing); an unrecognized event
leaves the session absent. -/
theorem absent_session_transitions :
    (∀ e : Event,
        e.status = some "classifying_progress" ∨ e.status = some "complete" ∨
          e.status = some "error" →
        applyEventOpt none e = .error ()) ∧
    (∀ e : Event, e.status = some "found_messages" ∨ e.status = some "download_progress" →
        ∃ d : Phase, applyEventOpt none e = .ok (some { download := some d, classify := none }, [])) ∧
    (∀ e : Event, unrecognized e → applyEventOpt none e = .ok (none, [])) := by
  refine ⟨?_, ?_, ?_⟩
  · intro e h
    rcases h with h | h | h <;>
      · unfold applyEventOpt
        rw [h]
        simp [truthyStr]
  · intro e h
    rcases h with h | h
    · refine ⟨{ status := .active, current := 0, total := orZero e.total,
                message := some (orStr e.message
                  ("Encontrados " ++ optNatStr e.total ++ " mensajes")) }, ?_⟩
      unfold applyEventOpt
      rw [h]
      simp
    · refine ⟨{ status := .active, current := orZero e.current, total := orZero e.total,
                message := some (orStr e.message "Descargando...") }, ?_⟩
      unfold applyEventOpt
      rw [h]
      simp [truthyStr]
  · intro e h
    obtain ⟨h1, h2, h3, h4, h5, h6, h7, h8⟩ := h
    unfold applyEventOpt
    rw [if_neg h1]
    rw [if_neg (show ¬_ from fun hor =>
      hor.elim h2 (fun hor2 => hor2.elim h3 (fun hand => not_and.mp h4 hand.1 hand.2)))]
    rw [if_neg (show ¬_ from fun hor => hor.elim h5 h6)]
    rw [if_neg h7, if_neg h8]

theorem absent_session_transitions_witness :
    (evCompleteBare.status = some "classifying_progress" ∨
      evCompleteBare.status = some "complete" ∨ evCompleteBare.status = some "error") ∧
    applyEventOpt none evCompleteBare = Except.error () ∧
    unrecognized evUnknownTag ∧
    applyEventOpt none evUnknownTag = Except.ok (none, []) :=
  ⟨Or.inr (Or.inl rfl),
   absent_session_transitions.1 evCompleteBare (Or.inr (Or.inl rfl)),
   by unfold unrecognized; refine ⟨by decide, by decide, by decide, by decide, by decide,
        by decide, by decide, by decide⟩,
   absent_session_transitions.2.2 evUnknownTag
     ⟨by decide, by decide, by decide, by decide, by decide, by decide, by decide, by decide⟩⟩

theorem filterMap_eq_map_of_mem {α β : Type} (p : α → Option β) (f : α → β) :
    ∀ l : List α, (∀ r ∈ l, p r = some (f r)) → l.filterMap p = l.map f
  | [], _ => rfl
  | a :: l, h => by
    rw [List.filterMap_cons, h a (by simp), List.map_cons,
      filterMap_eq_map_of_mem p f l (fun r hr => h r (by simp [hr]))]

/-- C2: with one malformed record among `N` well-formed `data: `-prefixed
records, the parse loop delivers exactly the `N` events of the
well-formed records, in their original relative order; the decode
failure only drops its own record and the loop continues past it. -/
theorem malformed_event_isolated {E : Type} (jsonParse : List Nat → Option E)
    (ev : List Nat → E) (before after : List (List Nat)) (bad : List Nat)
    (hwf : ∀ r ∈ before ++ after, dataColonSpace.isPrefixOf (trimStr r) = true ∧
        (trimStr r).drop 6 ≠ [] ∧ jsonParse ((trimStr r).drop 6) = some (ev r))
    (hbadPre : dataColonSpace.isPrefixOf (trimStr bad) = true)
    (hbadNonempty : (trimStr bad).drop 6 ≠ [])
    (hbadParse : jsonParse ((trimStr bad).drop 6) = none) :
    processRecords jsonParse (before ++ bad :: after) = (before ++ after).map ev ∧
    (processRecords jsonParse (before ++ bad :: after)).length =
      before.length + after.length := by
  have hrec : ∀ r ∈ before ++ after, parseRecord jsonParse r = some (ev r) := by
    intro r hr
    obtain ⟨hp, hne, hj⟩ := hwf r hr
    unfold parseRecord
    rw [if_pos hp, if_neg hne, hj]
  have hbadRec : parseRecord jsonParse bad = none := by
    unfold parseRecord
    rw [if_pos hbadPre, if_neg hbadNonempty, hbadParse]
  have hmain : processRecords jsonParse (before ++ bad :: after) = (before ++ after).map ev := by
    unfold processRecords
    rw [List.filterMap_append, List.filterMap_cons, hbadRec]
    rw [filterMap_eq_map_of_mem (parseRecord jsonParse) ev before
        (fun r hr => hrec r (by simp [hr])),
      filterMap_eq_map_of_mem (parseRecord jsonParse) ev after
        (fun r hr => hrec r (by simp [hr])),
      List.map_append]
  exact ⟨hmain, by rw [hmain]; simp⟩

theorem malformed_event_isolated_witness :
    (∀ r ∈ [recData1] ++ [recData1],
        dataColonSpace.isPrefixOf (trimStr r) = true ∧
        (trimStr r).drop 6 ≠ [] ∧ sampleParse ((trimStr r).drop 6) = some 7) ∧
    dataColonSpace.isPrefixOf (trimStr recData2) = true ∧
    (trimStr recData2).drop 6 ≠ [] ∧
    sampleParse ((trimStr recData2).drop 6) = none ∧
    processRecords sampleParse ([recData1] ++ recData2 :: [recData1]) =
      ([recData1] ++ [recData1]).map (fun _ => 7) ∧
    (processRecords sampleParse ([recData1] ++ recData2 :: [recData1])).length = 1 + 1 :=
  ⟨by decide, by decide, by decide, by decide,
   malformed_event_isolated sampleParse (fun _ => 7) [recData1] [recData1] recData2
     (by decide) (by decide) (by decide) (by decide)⟩

theorem readLoop_readFail {E : Type} (jsonParse : List Nat → Option E) :
    ∀ reads : List ReadStep, ReadStep.readFail ∈ reads →
      ∀ st : DecState, (readLoop jsonParse st reads).2 = true
  | [], h => absurd h (by simp)
  | .readFail :: _, _ => fun _ => rfl
  | .chunk bs :: rest, h => fun st => by
      have hrest : ReadStep.readFail ∈ rest := by
        rcases List.mem_cons.mp h with h1 | h1
        · exact absurd h1 (by simp)
        · exact h1
      show (readLoop jsonParse (stepChunk st bs).1 rest).2 = true
      exact readLoop_readFail jsonParse rest hrest (stepChunk st bs).1

/-- C6: every transport error (fetch rejection, non-2xx response,
missing reader, or reader rejection) leads to exactly one invocation of
the error callback, and the Dashboard error callback discards the
session unconditionally (no error phase) and emits the generic
connection-failure notification, whatever the accumulated session. -/
theorem transport_failure_semantics {E : Type} (jsonParse : List Nat → Option E)
    (t : Transport) (hfail : transportFails t) (s : Option Session) :
    (streamSync jsonParse t).2 = 1 ∧
    onStreamError s = (none, [.notifyError "Sync connection failed"]) := by
  refine ⟨?_, rfl⟩
  cases t with
  | fetchFail => rfl
  | response ok readerAvail reads =>
    rcases hfail with h | h | h
    · subst h; rfl
    · subst h; cases ok <;> rfl
    · cases ok with
      | false => rfl
      | true =>
        cases readerAvail with
        | false => rfl
        | true =>
          simp only [streamSync, if_neg (by simp : ¬(true = false))]
          rw [readLoop_readFail jsonParse reads h ⟨[], []⟩]
          rfl

theorem transport_failure_semantics_witness :
    transportFails Transport.fetchFail ∧
    (streamSync sampleParse Transport.fetchFail).2 = 1 ∧
    onStreamError (some initSession) = (none, [.notifyError "Sync connection failed"]) :=
  ⟨trivial,
   (transport_failure_semantics sampleParse Transport.fetchFail trivial (some initSession)).1,
   (transport_failure_semantics sampleParse Transport.fetchFail trivial (some initSession)).2⟩

theorem bulkLoop_dispatched {α : Type} (oracle : α → Bool) (n : Nat) :
    ∀ (l : List α) (i c f : Nat),
      ((bulkLoop oracle n l i c f).1.map (·.dispatched)) = chunks5 l
  | [], _, _, _ => rfl
  | [_], _, _, _ => rfl
  | [_, _], _, _, _ => rfl
  | [_, _, _], _, _, _ => rfl
  | [_, _, _, _], _, _, _ => rfl
  | a :: b :: c' :: d :: e :: rest, i, c, f => by
      simp only [bulkLoop, List.map_cons, chunks5]
      rw [bulkLoop_dispatched oracle n rest]

theorem bulkLoop_progress {α : Type} (oracle : α → Bool) (n : Nat) :
    ∀ (l : List α) (i c f : Nat),
      ((bulkLoop oracle n l i c f).1.map (·.progress)) =
        (List.range (chunks5 l).length).map (fun k => min (i + 5 * k + 5) n)
  | [], _, _, _ => rfl
  | [_], _, _, _ => rfl
  | [_, _], _, _, _ => rfl
  | [_, _, _], _, _, _ => rfl
  | [_, _, _, _], _, _, _ => rfl
  | a :: b :: c' :: d :: e :: rest, i, c, f => by
      simp only [bulkLoop, List.map_cons, chunks5, List.length_cons]
      rw [bulkLoop_progress oracle n rest, List.range_succ_eq_map, List.map_cons,
        List.map_map]
      refine congrArg₂ _ (by omega) ?_
      exact List.map_congr_left (fun k _ => by simp only [Function.comp]; omega)

theorem bulkLoop_counts {α : Type} (oracle : α → Bool) (n : Nat) :
    ∀ (l : List α) (i c f : Nat),
      (bulkLoop oracle n l i c f).2 =
        (c + (l.filter oracle).length, f + (l.filter (fun x => ! oracle x)).length)
  | [], _, _, _ => by simp [bulkLoop]
  | [_], _, _, _ => rfl
  | [_, _], _, _, _ => rfl
  | [_, _, _], _, _, _ => rfl
  | [_, _, _, _], _, _, _ => rfl
  | a :: b :: c' :: d :: e :: rest, i, c, f => by
      simp only [bulkLoop]
      rw [bulkLoop_counts oracle n rest]
      rw [show (a :: b :: c' :: d :: e :: rest) = [a, b, c', d, e] ++ rest from rfl,
        List.filter_append, List.filter_append, List.length_append, List.length_append]
      simp only [settleBatch, Prod.mk.injEq]
      omega

theorem bulkLoop_ne_nil {α : Type} (oracle : α → Bool) (n : Nat) :
    ∀ (l : List α) (i c f : Nat), l ≠ [] → (bulkLoop oracle n l i c f).1 ≠ []
  | [], _, _, _, h => absurd rfl h
  | [_], _, _, _, _ => by simp [bulkLoop]
  | [_, _], _, _, _, _ => by simp [bulkLoop]
  | [_, _, _], _, _, _, _ => by simp [bulkLoop]
  | [_, _, _, _], _, _, _, _ => by simp [bulkLoop]
  | _ :: _ :: _ :: _ :: _ :: _, _, _, _, _ => by simp [bulkLoop]

theorem length_filter_not_add {α : Type} (p : α → Bool) :
    ∀ l : List α, (l.filter p).length + (l.filter (fun x => ! p x)).length = l.length
  | [] => rfl
  | a :: l => by
      have ih := length_filter_not_add p l
      cases h : p a <;> simp [List.filter_cons, h] <;> omega

/-- C7: for a nonempty candidate list, the scheduler dispatches exactly
the consecutive batches of five, reports `min(i+5, n)` over `n` after
each batch, and ends with the tallies of settled successes and failures;
in particular 12 candidates with every request succeeding give progress
reports 5/12, 10/12, 12/12 and the summary `{classified: 12, failed: 0}`. -/
theorem bulk_batching {α : Type} (oracle : α → Bool) (cand : List α)
    (_hpos : 0 < cand.length) :
    ((bulkLoop oracle cand.length cand 0 0 0).1.map (·.dispatched)) = chunks5 cand ∧
    ((bulkLoop oracle cand.length cand 0 0 0).1.map (·.progress)) =
      (List.range (chunks5 cand).length).map (fun k => min (5 * k + 5) cand.length) ∧
    (bulkLoop oracle cand.length cand 0 0 0).2 =
      ((cand.filter oracle).length, (cand.filter (fun x => ! oracle x)).length) ∧
    handleBulkClassify (fun _ : Nat => true) (fun _ => none) (List.range 12) =
      ([.notifyInfo "Starting bulk classification...",
        .notifyInfo "Classifying... 5/12", .notifyInfo "Classifying... 10/12",
        .notifyInfo "Classifying... 12/12", .refetchMessages,
        .notifySuccess "Bulk classification complete! Classified: 12, Failed: 0"],
       12, 0) := by
  refine ⟨bulkLoop_dispatched oracle cand.length cand 0 0 0, ?_, ?_, ?_⟩
  · rw [bulkLoop_progress oracle cand.length cand 0 0 0]
    exact List.map_congr_left (fun k _ => by omega)
  · rw [bulkLoop_counts oracle cand.length cand 0 0 0]
    simp
  · rfl

theorem bulk_batching_witness :
    0 < (List.range 12).length ∧
    ((bulkLoop (fun _ : Nat => true) (List.range 12).length (List.range 12) 0 0 0).1.map
      (·.progress)) =
      (List.range (chunks5 (List.range 12)).length).map
        (fun k => min (5 * k + 5) (List.range 12).length) :=
  ⟨by decide, (bulk_batching (fun _ : Nat => true) (List.range 12) (by decide)).2.1⟩

/-- C8: with exactly one failing request in a full first batch of five
and a nonempty remainder, the first batch still settles all five of its
requests, the tally after it is `{classified: 4, failed: 1}`, and the
following batches are dispatched exactly as the consecutive five-chunks
of the remainder, unaffected by the failure. -/
theorem bulk_failure_tolerance {α : Type} (oracle : α → Bool) (a b : List α)
    (hlen : a.length = 5) (hfail : (a.filter (fun x => ! oracle x)).length = 1)
    (hb : b ≠ []) :
    ∃ t ts, (bulkLoop oracle (a ++ b).length (a ++ b) 0 0 0).1 = t :: ts ∧
      t.dispatched = a ∧ t.classifiedAfter = 4 ∧ t.failedAfter = 1 ∧
      ts ≠ [] ∧ ts.map (·.dispatched) = chunks5 b := by
  rcases a with _ | ⟨x1, a⟩; · simp at hlen
  rcases a with _ | ⟨x2, a⟩; · simp at hlen
  rcases a with _ | ⟨x3, a⟩; · simp at hlen
  rcases a with _ | ⟨x4, a⟩; · simp at hlen
  rcases a with _ | ⟨x5, a⟩; · simp at hlen
  rcases a with _ | ⟨x6, a⟩
  swap
  · simp at hlen
  have hcompl := length_filter_not_add oracle [x1, x2, x3, x4, x5]
  refine ⟨_, _, rfl, rfl, ?_, ?_, ?_, ?_⟩
  · show (settleBatch oracle [x1, x2, x3, x4, x5] 0 0).1 = 4
    simp only [settleBatch]
    omega
  · show (settleBatch oracle [x1, x2, x3, x4, x5] 0 0).2 = 1
    simp only [settleBatch]
    omega
  · exact bulkLoop_ne_nil oracle _ b _ _ _ hb
  · exact bulkLoop_dispatched oracle _ b _ _ _

theorem bulk_failure_tolerance_witness :
    ([0, 1, 2, 3, 4] : List Nat).length = 5 ∧
    (([0, 1, 2, 3, 4] : List Nat).filter (fun x => ! (x != 0))).length = 1 ∧
    ([5, 6, 7] : List Nat) ≠ [] ∧
    (∃ t ts,
      (bulkLoop (fun x : Nat => x != 0) (([0, 1, 2, 3, 4] ++ [5, 6, 7] : List Nat)).length
        ([0, 1, 2, 3, 4] ++ [5, 6, 7]) 0 0 0).1 = t :: ts ∧
      t.dispatched = [0, 1, 2, 3, 4] ∧ t.classifiedAfter = 4 ∧ t.failedAfter = 1 ∧
      ts ≠ [] ∧ ts.map (·.dispatched) = chunks5 [5, 6, 7]) :=
  ⟨by decide, by decide, by decide,
   bulk_failure_tolerance (fun x : Nat => x != 0) [0, 1, 2, 3, 4] [5, 6, 7]
     (by decide) (by decide) (by decide)⟩

theorem decodeStep_append : ∀ (xs ys : List Nat) (c : Nat) (rest : List Nat),
    decodeStep xs = some (c, rest) → decodeStep (xs ++ ys) = some (c, rest ++ ys) := by
  intro xs ys c rest h
  rcases xs with _ | ⟨b, tl⟩
  · simp [decodeStep] at h
  · simp only [decodeStep, List.cons_append] at h ⊢
    split at h
    · simp only [Option.some.injEq, Prod.mk.injEq] at h
      obtain ⟨h1, h2⟩ := h
      subst h1; subst h2
      rw [if_pos (by assumption)]
    · rename_i hn1
      rw [if_neg hn1]
      split at h
      · rename_i hp2
        rw [if_pos hp2]
        rcases tl with _ | ⟨b2, tl2⟩
        · simp at h
        · simp only [Option.some.injEq, Prod.mk.injEq] at h
          obtain ⟨h1, h2⟩ := h
          subst h1; subst h2
          rfl
      · rename_i hn2
        rw [if_neg hn2]
        split at h
        · rename_i hp3
          rw [if_pos hp3]
          rcases tl with _ | ⟨b2, _ | ⟨b3, tl3⟩⟩
          · simp at h
          · simp at h
          · simp only [Option.some.injEq, Prod.mk.injEq] at h
            obtain ⟨h1, h2⟩ := h
            subst h1; subst h2
            rfl
        · rename_i hp3
          rw [if_neg hp3]
          rcases tl with _ | ⟨b2, _ | ⟨b3, _ | ⟨b4, tl4⟩⟩⟩
          · simp at h
          · simp at h
          · simp at h
          · simp only [Option.some.injEq, Prod.mk.injEq] at h
            obtain ⟨h1, h2⟩ := h
            subst h1; subst h2
            rfl

theorem decodeGreedy_append : ∀ (xs ys : List Nat),
    decodeGreedy (xs ++ ys) =
      ((decodeGreedy xs).1 ++ (decodeGreedy ((decodeGreedy xs).2 ++ ys)).1,
       (decodeGreedy ((decodeGreedy xs).2 ++ ys)).2) := by
  intro xs
  induction xs using decodeGreedy.induct with
  | case1 bs hnone =>
      intro ys
      have hbs : decodeGreedy bs = ([], bs) := by rw [decodeGreedy.eq_def, hnone]
      rw [hbs]
      simp
  | case2 bs c rest hsome ih =>
      intro ys
      have hstep := decodeStep_append bs ys c rest hsome
      rw [decodeGreedy.eq_def (bs ++ ys), hstep]
      rw [decodeGreedy.eq_def bs, hsome]
      simp only [consOut]
      rw [ih ys]
      simp

theorem splitNN_ne_nil : ∀ l : List Nat, splitNN l ≠ []
  | [] => by simp [splitNN]
  | [c] => by simp [splitNN]
  | c :: d :: rest => by
      simp only [splitNN]
      split
      · simp
      · cases h : splitNN (d :: rest) <;> simp [consHead]

theorem splitNN_singleton : ∀ (l : List Nat) (s : List Nat), splitNN l = [s] → s = l
  | [], s, h => by
      injection h with h1 _
      exact h1.symm
  | [c], s, h => by
      injection h with h1 _
      exact h1.symm
  | c :: d :: rest, s, h => by
      simp only [splitNN] at h
      split at h
      · injection h with h1 h2
        exact absurd h2 (splitNN_ne_nil rest)
      · rcases hS : splitNN (d :: rest) with _ | ⟨p, ps⟩
        · exact absurd hS (splitNN_ne_nil _)
        · rw [hS] at h
          simp only [consHead] at h
          injection h with h1 h2
          have hp : p = d :: rest := splitNN_singleton (d :: rest) p (by rw [hS, h2])
          rw [← h1, hp]

theorem lastD_append : ∀ (A B : List (List Nat)), B ≠ [] → lastD (A ++ B) = lastD B
  | [], _, _ => rfl
  | [p], B, h => by
      rcases B with _ | ⟨r, B⟩
      · exact absurd rfl h
      · rfl
  | p :: q :: A, B, h => by
      have ih := lastD_append (q :: A) B h
      simp only [List.cons_append] at ih ⊢
      show lastD (q :: (A ++ B)) = lastD B
      exact ih

theorem dropLastL_append : ∀ (A B : List (List Nat)), B ≠ [] →
    dropLastL (A ++ B) = A ++ dropLastL B
  | [], _, _ => by simp
  | [p], B, h => by
      rcases B with _ | ⟨r, B⟩
      · exact absurd rfl h
      · rfl
  | p :: q :: A, B, h => by
      have ih := dropLastL_append (q :: A) B h
      simp only [List.cons_append] at ih ⊢
      show p :: dropLastL (q :: (A ++ B)) = p :: ((q :: A) ++ dropLastL B)
      rw [ih]
      simp

theorem splitNN_append : ∀ xs ys : List Nat,
    splitNN (xs ++ ys) = dropLastL (splitNN xs) ++ splitNN (lastD (splitNN xs) ++ ys)
  | [], ys => by simp [splitNN, dropLastL, lastD]
  | [c], ys => by simp [splitNN, dropLastL, lastD]
  | c :: d :: rest, ys => by
      by_cases h : c = 10 ∧ d = 10
      · obtain ⟨hc, hd⟩ := h
        subst hc; subst hd
        simp only [List.cons_append]
        rw [show splitNN (10 :: 10 :: (rest ++ ys)) = [] :: splitNN (rest ++ ys) from by
          simp [splitNN]]
        rw [show splitNN (10 :: 10 :: rest) = [] :: splitNN rest from by simp [splitNN]]
        rw [splitNN_append rest ys]
        rcases hS : splitNN rest with _ | ⟨p, ps⟩
        · exact absurd hS (splitNN_ne_nil rest)
        · simp [dropLastL, lastD]
      · simp only [List.cons_append]
        rw [show splitNN (c :: d :: (rest ++ ys)) = consHead c (splitNN (d :: (rest ++ ys)))
            from by simp [splitNN, h]]
        rw [show splitNN (c :: d :: rest) = consHead c (splitNN (d :: rest)) from by
          simp [splitNN, h]]
        rw [show (d :: (rest ++ ys)) = (d :: rest) ++ ys from by simp]
        rw [splitNN_append (d :: rest) ys]
        rcases hS : splitNN (d :: rest) with _ | ⟨p, ps⟩
        · exact absurd hS (splitNN_ne_nil _)
        rcases ps with _ | ⟨q, qs⟩
        · have hp : p = d :: rest := splitNN_singleton (d :: rest) p hS
          simp only [dropLastL, lastD, consHead, List.nil_append]
          subst hp
          rw [show ((c :: d :: rest) ++ ys) = c :: d :: (rest ++ ys) from by simp]
          rw [show splitNN (c :: d :: (rest ++ ys)) = consHead c (splitNN (d :: (rest ++ ys)))
              from by simp [splitNN, h]]
          rw [show (d :: (rest ++ ys)) = (d :: rest) ++ ys from by simp]
          cases splitNN ((d :: rest) ++ ys) <;> simp [consHead]
        · simp only [dropLastL, lastD, consHead, List.cons_append]

theorem runStream_eq : ∀ (chunks : List (List Nat)), chunks ≠ [] → ∀ (p b : List Nat),
    runStream ⟨p, b⟩ chunks =
      dropLastL (splitNN (b ++ (decodeGreedy (p ++ chunks.flatten)).1))
  | [], h => absurd rfl h
  | [ch], _ => fun p b => by
      simp [runStream, stepChunk]
  | ch :: ch2 :: chs, _ => fun p b => by
      have ih := runStream_eq (ch2 :: chs) (by simp) (decodeGreedy (p ++ ch)).2
        (lastD (splitNN (b ++ (decodeGreedy (p ++ ch)).1)))
      show dropLastL (splitNN (b ++ (decodeGreedy (p ++ ch)).1)) ++
          runStream ⟨(decodeGreedy (p ++ ch)).2,
            lastD (splitNN (b ++ (decodeGreedy (p ++ ch)).1))⟩ (ch2 :: chs) =
        dropLastL (splitNN (b ++ (decodeGreedy (p ++ (ch :: ch2 :: chs).flatten)).1))
      rw [ih]
      rw [show p ++ (ch :: ch2 :: chs).flatten = (p ++ ch) ++ (ch2 :: chs).flatten from by
        rw [show (ch :: ch2 :: chs).flatten = ch ++ (ch2 :: chs).flatten from rfl,
          List.append_assoc]]
      have hdg1 : (decodeGreedy ((p ++ ch) ++ (ch2 :: chs).flatten)).1 =
          (decodeGreedy (p ++ ch)).1 ++
            (decodeGreedy ((decodeGreedy (p ++ ch)).2 ++ (ch2 :: chs).flatten)).1 := by
        rw [decodeGreedy_append (p ++ ch) ((ch2 :: chs).flatten)]
      rw [hdg1]
      rw [show b ++ ((decodeGreedy (p ++ ch)).1 ++
            (decodeGreedy ((decodeGreedy (p ++ ch)).2 ++ (ch2 :: chs).flatten)).1) =
          (b ++ (decodeGreedy (p ++ ch)).1) ++
            (decodeGreedy ((decodeGreedy (p ++ ch)).2 ++ (ch2 :: chs).flatten)).1 from by
        rw [List.append_assoc]]
      rw [splitNN_append (b ++ (decodeGreedy (p ++ ch)).1)
        ((decodeGreedy ((decodeGreedy (p ++ ch)).2 ++ (ch2 :: chs).flatten)).1)]
      rw [dropLastL_append _ _ (splitNN_ne_nil _)]

theorem decodeStep_encodeChar (c : Nat) (hc : c < 1114112) (t : List Nat) :
    decodeStep (utf8EncodeChar c ++ t) = some (c, t) := by
  by_cases h1 : c < 128
  · rw [show utf8EncodeChar c = [c] from by simp [utf8EncodeChar, h1]]
    have hl : utf8Len c = 1 := by simp [utf8Len, h1]
    simp [decodeStep, hl, decodeBytes]
  · by_cases h2 : c < 2048
    · rw [show utf8EncodeChar c = [192 + c / 64, 128 + c % 64] from by
        simp [utf8EncodeChar, h1, h2]]
      have hl : utf8Len (192 + c / 64) = 2 := by
        simp only [utf8Len]
        rw [if_neg (by omega), if_neg (by omega), if_pos (by omega)]
      simp [decodeStep, hl, decodeBytes]
      omega
    · by_cases h3 : c < 65536
      · rw [show utf8EncodeChar c = [224 + c / 4096, 128 + c / 64 % 64, 128 + c % 64] from by
          simp [utf8EncodeChar, h1, h2, h3]]
        have hl : utf8Len (224 + c / 4096) = 3 := by
          simp only [utf8Len]
          rw [if_neg (by omega), if_neg (by omega), if_neg (by omega), if_pos (by omega)]
        simp [decodeStep, hl, decodeBytes]
        omega
      · rw [show utf8EncodeChar c =
            [240 + c / 262144, 128 + c / 4096 % 64, 128 + c / 64 % 64, 128 + c % 64] from by
          simp [utf8EncodeChar, h1, h2, h3]]
        have hl : utf8Len (240 + c / 262144) = 4 := by
          simp only [utf8Len]
          rw [if_neg (by omega), if_neg (by omega), if_neg (by omega), if_neg (by omega),
            if_pos (by omega)]
        simp [decodeStep, hl, decodeBytes]
        omega

theorem decodeGreedy_encode : ∀ (text : List Nat), (∀ c ∈ text, c < 1114112) →
    decodeGreedy (utf8Encode text) = (text, [])
  | [], _ => by
      rw [show utf8Encode [] = [] from rfl, decodeGreedy.eq_def]
      simp [decodeStep]
  | c :: t, h => by
      have hc := h c (List.mem_cons_self c t)
      have ih := decodeGreedy_encode t (fun x hx => h x (List.mem_cons_of_mem c hx))
      rw [show utf8Encode (c :: t) = utf8EncodeChar c ++ utf8Encode t from by
        simp [utf8Encode]]
      rw [decodeGreedy.eq_def, decodeStep_encodeChar c hc (utf8Encode t)]
      show consOut c (decodeGreedy (utf8Encode t)) = (c :: t, [])
      rw [ih]
      rfl

theorem utf8EncodeChar_ne_nil (c : Nat) : utf8EncodeChar c ≠ [] := by
  unfold utf8EncodeChar
  split_ifs <;> simp

theorem utf8Encode_eq_nil : ∀ text : List Nat, utf8Encode text = [] → text = []
  | [], _ => rfl
  | c :: t, h => by
      exfalso
      rw [show utf8Encode (c :: t) = utf8EncodeChar c ++ utf8Encode t from by
        simp [utf8Encode]] at h
      exact utf8EncodeChar_ne_nil c (List.append_eq_nil.mp h).1

/-- C1: chunk-split invariance of the read loop of `streamSync`: for any
partition of the UTF-8 bytes of an event-record text into sub-chunks
(including splits inside multi-byte characters and inside the `\n\n`
delimiter), the loop emits exactly the records it emits when the whole
text arrives as one chunk — namely all pieces but the last of the text
split on the double newline — and hence delivers the same parsed events
to `onMessage`. -/
theorem chunk_split_invariance {E : Type} (jsonParse : List Nat → Option E)
    (text : List Nat) (chunks : List (List Nat))
    (hvalid : ∀ c ∈ text, c < 1114112)
    (hpart : chunks.flatten = utf8Encode text) :
    runStream ⟨[], []⟩ chunks = runStream ⟨[], []⟩ [utf8Encode text] ∧
    runStream ⟨[], []⟩ chunks = dropLastL (splitNN text) ∧
    processRecords jsonParse (runStream ⟨[], []⟩ chunks) =
      processRecords jsonParse (runStream ⟨[], []⟩ [utf8Encode text]) := by
  have hsingle : runStream ⟨[], []⟩ [utf8Encode text] = dropLastL (splitNN text) := by
    rw [runStream_eq [utf8Encode text] (by simp) [] []]
    rw [show ([utf8Encode text] : List (List Nat)).flatten = utf8Encode text from by simp]
    simp only [List.nil_append]
    rw [decodeGreedy_encode text hvalid]
  have hmulti : runStream ⟨[], []⟩ chunks = dropLastL (splitNN text) := by
    rcases chunks with _ | ⟨ch, chs⟩
    · have htext : text = [] := utf8Encode_eq_nil text (by simpa using hpart.symm)
      subst htext
      rfl
    · rw [runStream_eq (ch :: chs) (by simp) [] []]
      simp only [List.nil_append]
      rw [hpart, decodeGreedy_encode text hvalid]
  exact ⟨hmulti.trans hsingle.symm, hmulti, by rw [hmulti.trans hsingle.symm]⟩

theorem chunk_split_invariance_witness :
    (∀ c ∈ ([233, 10, 10, 98] : List Nat), c < 1114112) ∧
    ([[195], [169, 10], [10, 98]] : List (List Nat)).flatten = utf8Encode [233, 10, 10, 98] ∧
    runStream ⟨[], []⟩ [[195], [169, 10], [10, 98]] =
      runStream ⟨[], []⟩ [utf8Encode [233, 10, 10, 98]] ∧
    runStream ⟨[], []⟩ [[195], [169, 10], [10, 98]] = dropLastL (splitNN [233, 10, 10, 98]) :=
  ⟨by decide, by decide,
   (chunk_split_invariance sampleParse [233, 10, 10, 98] [[195], [169, 10], [10, 98]]
     (by decide) (by decide)).1,
   (chunk_split_invariance sampleParse [233, 10, 10, 98] [[195], [169, 10], [10, 98]]
     (by decide) (by decide)).2.1⟩

end GestorCorreo
